import Mathlib

/-!
Verification development for cmorph.py, the single-file downloader of the
CMORPH 8km-30min v1.0 dataset.  The Python source is shallowly embedded:
the local filesystem is an association list from paths to file contents,
HTTP responses are explicit records, fallible operations return Except,
and the Python floats of the percent-complete computation are modelled by
exact rationals rounded after each arithmetic step to IEEE-754 binary64
precision (53-bit significand, round to nearest, ties to even).  The
binade exponent is treated as unbounded: file-size ratios never approach
the overflow or subnormal range of a double, where Python int division
would instead raise OverflowError.
-/

namespace Cmorph

/-- Content of one local file: its bytes and its modification time. -/
structure File where
  bytes : List Nat
  mtime : Nat
  deriving DecidableEq

/-- The local filesystem: an association list from paths to files.
A write shadows earlier entries for the same path. -/
abbrev FS := List (String × File)

/-- Reading a path from the filesystem (os.path.exists / os.stat view). -/
def lookupFile : FS → String → Option File
  | [], _ => none
  | (p, f) :: rest, q => if p = q then some f else lookupFile rest q

/-- Writing a file: open(file_base, "wb") truncates and replaces the
previous content wholesale, so a write simply shadows the old entry. -/
def writeFile (fs : FS) (p : String) (f : File) : FS := (p, f) :: fs

/-- An HTTP response as the script sees it through requests: the status
code and text (used by authenticate), the optional Content-length header,
the body as the list of chunks yielded by iter_content, and the
last-modified metadata consulted by the staleness check. -/
structure Response where
  status_code : Nat
  text : String
  contentLength : Option Nat
  body : List (List Nat)
  lastModified : Nat
  deriving DecidableEq

/-- The uncaught Python exceptions and aborts the script can produce:
a missing Content-length header (KeyError), the percent-complete division
by a zero filesize (ZeroDivisionError), os.stat on a missing file
(FileNotFoundError), exit(1) after a failed authentication (carrying the
lines logged just before exiting), and calendar.monthrange on a month
outside 1..12 (IllegalMonthError). -/
inductive PyErr where
  | keyError
  | zeroDivision
  | fileNotFound
  | systemExit (logged : List String)
  | illegalMonth
  deriving DecidableEq

/-- Modelled from the spec: check_mdt is imported from util.py, which is
not part of this repository snapshot.  Per the spec it queries the remote
resource metadata already carried by the open GET response and compares it
against the local file last-modified time; if the remote is not newer the
fetch is skipped.  So it returns true exactly when the local file exists
and the remote last-modified time is not newer than the local one.  It
only reads metadata and does not modify the local file. -/
def check_mdt (req : Response) (localFile : Option File) : Bool :=
  match localFile with
  | none => false
  | some f => decide (req.lastModified ≤ f.mtime)

/-- Rounding of a rational to the nearest integer with ties to even, the
IEEE-754 default rule, applied to the scaled significand. -/
def rhe (x : ℚ) : ℤ :=
  if x - ⌊x⌋ < 1/2 then ⌊x⌋
  else if 1/2 < x - ⌊x⌋ then ⌊x⌋ + 1
  else if Even ⌊x⌋ then ⌊x⌋ else ⌊x⌋ + 1

/-- Exact value of a positive rational rounded to an IEEE-754 binary64
float: the significand, scaled into the binade of 52-bit integers by the
floor base-2 logarithm, is rounded to the nearest integer with ties to
even.  The exponent is unbounded (no overflow or subnormal range): the
size ratios of the completeness check never approach those limits, where
Python int division would raise OverflowError instead of returning a
float. -/
def f64roundPos (q : ℚ) : ℚ :=
  (rhe (q * (2 : ℚ) ^ ((52 : ℤ) - Int.log 2 q)) : ℚ) * (2 : ℚ) ^ (Int.log 2 q - (52 : ℤ))

/-- binary64 rounding of a rational of any sign. -/
def f64round (q : ℚ) : ℚ :=
  if q = 0 then 0 else if q < 0 then -f64roundPos (-q) else f64roundPos q

/-- Python float division of two exactly represented operands: the
correctly rounded double of the exact quotient. -/
def pyDiv (a b : ℚ) : ℚ := f64round (a / b)

/-- Python float multiplication: the correctly rounded double of the
exact product. -/
def pyMul (a b : ℚ) : ℚ := f64round (a * b)

/-- check_file_status (cmorph.py lines 76-86): read the on-disk size with
os.stat, compute percent_complete = (size/filesize)*100 with Python float
semantics (one binary64 rounding after the division and one after the
multiplication; the comparison with the integer 100 is exact), and
classify complete exactly when the percentage equals 100, incomplete
otherwise.  A zero filesize raises ZeroDivisionError; a missing file
raises FileNotFoundError. -/
def check_file_status (fs : FS) (filepath : String) (filesize : Nat) : Except PyErr String :=
  match lookupFile fs filepath with
  | none => .error .fileNotFound
  | some f =>
    if filesize = 0 then .error .zeroDivision
    else if pyMul (pyDiv (f.bytes.length : ℚ) (filesize : ℚ)) 100 = 100 then .ok "complete"
    else .ok "incomplete"

/-- download_file (cmorph.py lines 102-116), parameterised by the
staleness predicate imported from util.py.  The GET response req is
already open; the Content-length header is parsed first (KeyError when
absent), then in update mode the staleness check may resolve the target
to skip before any byte is written; otherwise the body chunks are all
written to file_base (the intermediate per-chunk check_file_status calls
only print progress, so the net filesystem effect is writing the joined
body), and the final check_file_status call classifies the result. -/
def downloadFileWith (cmdt : Response → Option File → Bool)
    (req : Response) (file_base : String) (update : Bool) (fs : FS) (now : Nat) :
    Except PyErr (String × FS) :=
  match req.contentLength with
  | none => .error .keyError
  | some filesize =>
    let fetch : Except PyErr (String × FS) :=
      let fs1 := writeFile fs file_base ⟨req.body.flatten, now⟩
      match check_file_status fs1 file_base filesize with
      | .error e => .error e
      | .ok status => .ok (status, fs1)
    if update then
      if cmdt req (lookupFile fs file_base) then .ok ("skip", fs)
      else fetch
    else fetch

/-- download_file as the script runs it, with the util.py staleness
predicate in place. -/
def download_file (req : Response) (file_base : String) (update : Bool)
    (fs : FS) (now : Nat) : Except PyErr (String × FS) :=
  downloadFileWith check_mdt req file_base update fs now

/-- calendar.isleap: divisible by 4 and not by 100 unless by 400. -/
def isleap (y : Nat) : Bool := y % 4 == 0 && (y % 100 != 0 || y % 400 == 0)

/-- calendar.mdays table: day count of each month of a non-leap year. -/
def mdaysTable : Nat → Nat
  | 1 => 31 | 2 => 28 | 3 => 31 | 4 => 30 | 5 => 31 | 6 => 30
  | 7 => 31 | 8 => 31 | 9 => 30 | 10 => 31 | 11 => 30 | 12 => 31
  | _ => 0

/-- calendar.monthrange(y, m)[1]: the number of days of month m of year
y, with the leap-day added for February; months outside 1..12 raise
IllegalMonthError, modelled as none. -/
def monthrange_days (y m : Nat) : Option Nat :=
  if 1 ≤ m ∧ m ≤ 12 then some (mdaysTable m + if m = 2 ∧ isleap y then 1 else 0)
  else none

/-- Python int() on a decimal digit string. -/
def strToNat (s : String) : Nat :=
  s.data.foldl (fun a c => a * 10 + (c.toNat - 48)) 0

/-- The Python format "%.2d" % i for the day numbers 1..31: two digits,
zero padded. -/
def fmt2 (i : Nat) : String := if i < 10 then "0" ++ toString i else toString i

/-- get_filelist (cmorph.py lines 119-130): for each requested month, one
path per calendar day.  The source builds the template
CMORPH_V1.0_ADJ_8km-30min_{yr}{mn}DD00.nc and substitutes each two-digit
day string for the DD placeholder (for the digit strings used here that
replacement rewrites exactly the placeholder), prefixed by
v1.0/30min/8km/{yr}/{mn}/.  The os.makedirs call only creates directories
and touches no file, so it does not appear in the file-map model.  A month
outside 1..12 makes calendar.monthrange raise, modelled as none. -/
def get_filelist (yr : String) : List String → Option (List String)
  | [] => some []
  | mn :: rest =>
    let fpath := "v1.0/30min/8km/" ++ yr ++ "/" ++ mn ++ "/"
    match monthrange_days (strToNat yr) (strToNat mn) with
    | none => none
    | some lastday =>
      let days := (List.range' 1 lastday).map fmt2
      let fmonth := days.map
        (fun x => fpath ++ ("CMORPH_V1.0_ADJ_8km-30min_" ++ yr ++ mn ++ x ++ "00.nc"))
      match get_filelist yr rest with
      | none => none
      | some tail => some (fmonth ++ tail)

/-- The fixed dataset base URL (cmorph.py line 146). -/
def dspath : String := "https://rda.ucar.edu/data/ds502.2/"

/-- The remote URL of one planned file (cmorph.py line 170): the base URL
followed by the cmorph_ prefixed relative path. -/
def remote_of (fpath : String) : String := dspath ++ ("cmorph_" ++ fpath)

/-- The local destination of one planned file (cmorph.py line 171). -/
def file_base_of (data_dir fpath : String) : String := data_dir ++ "/" ++ fpath

/-- The three outcome buckets accumulated by main (lines 164-166). -/
structure Buckets where
  updated : List String
  new : List String
  error : List String
  deriving DecidableEq

/-- Ghost trace of the run: for each processed target, its relative path,
the update flag it was processed with, and the status string
download_file returned. -/
abbrev Trace := List (String × Bool × String)

/-- The classification step of main (cmorph.py lines 178-184): complete
goes to updated or new according to the update flag, incomplete goes to
error, anything else (skip) is dropped. -/
def classify (b : Buckets) (fpath : String) (update : Bool) (status : String) : Buckets :=
  if status = "complete" then
    if update then { b with updated := b.updated ++ [fpath] }
    else { b with new := b.new ++ [fpath] }
  else if status = "incomplete" then { b with error := b.error ++ [fpath] }
  else b

/-- The download loop of main (cmorph.py lines 169-184), parameterised by
the staleness predicate and by the map from URLs to responses the remote
server would give.  For each relative path the remote URL and local
destination are formed, update mode is entered exactly when the local file
already exists, download_file runs, and its status is classified.  An
error from download_file is an uncaught exception aborting the whole run.
Besides the buckets the model returns the ghost trace of per-target
statuses, which the script computes but does not store. -/
def runWith (cmdt : Response → Option File → Bool) (remote : String → Response)
    (data_dir : String) (now : Nat) :
    List String → FS → Buckets → Trace → Except PyErr (Buckets × Trace × FS)
  | [], fs, b, tr => .ok (b, tr, fs)
  | fpath :: rest, fs, b, tr =>
    let file_base := file_base_of data_dir fpath
    let update := (lookupFile fs file_base).isSome
    match downloadFileWith cmdt (remote (remote_of fpath)) file_base update fs now with
    | .error e => .error e
    | .ok (status, fs1) =>
      runWith cmdt remote data_dir now rest fs1 (classify b fpath update status)
        (tr ++ [(fpath, update, status)])

/-- authenticate (cmorph.py lines 88-99): any status code other than 200
logs the fixed line Bad Authentication followed by the response text and
then calls exit(1); on 200 the response (carrying the session cookies) is
returned. -/
def authenticate (ret : Response) : Except PyErr Response :=
  if ret.status_code ≠ 200 then .error (.systemExit ["Bad Authentication", ret.text])
  else .ok ret

/-- main (cmorph.py lines 133-186) after argument parsing and log setup:
authenticate first, then build the file plan, then run the download loop
from empty buckets; the returned Buckets value is what print_summary
receives at the end of a run that completed the whole plan. -/
def main_run (authRet : Response) (yr : String) (mns : List String)
    (remote : String → Response) (root_dir : String) (fs : FS) (now : Nat) :
    Except PyErr (Buckets × Trace × FS) :=
  match authenticate authRet with
  | .error e => .error e
  | .ok _ =>
    match get_filelist yr mns with
    | none => .error .illegalMonth
    | some flist =>
      runWith check_mdt remote (root_dir ++ "/cmorph/data") now flist fs ⟨[], [], []⟩ []

/-- Selector for the updated bucket: a trace entry lands in updated when
its status is complete and it ran in update mode. -/
def selUpd : String × Bool × String → Option String
  | (f, u, s) => if s = "complete" ∧ u = true then some f else none

/-- Selector for the new bucket: status complete outside update mode. -/
def selNew : String × Bool × String → Option String
  | (f, u, s) => if s = "complete" ∧ u = false then some f else none

/-- Selector for the error bucket: status incomplete. -/
def selErr : String × Bool × String → Option String
  | (f, _, s) => if s = "incomplete" then some f else none

/-- Substring test on character lists, used to state what a log line
mentions. -/
def hasInfix : List Char → List Char → Bool
  | needle, [] => needle.isEmpty
  | needle, c :: cs => needle.isPrefixOf (c :: cs) || hasInfix needle cs

/-- Substring test on strings. -/
def strContains (hay needle : String) : Bool := hasInfix needle.data hay.data

/-- A list of logged lines mentions a numeric status code when some line
contains its decimal rendering as a substring. -/
def logsStatusCode (logged : List String) (code : Nat) : Prop :=
  ∃ line ∈ logged, strContains line (toString code) = true

/-- The remote path pattern exactly as the claim words it, with its
doubled directory part: v1.0/30min/8km/yr/mn/cmorph_v1.0/30min/8km/yr/mn/
CMORPH_V1.0_ADJ_8km-30min_yrmndd00.nc.  This definition follows the words
of the claim, for comparison against the paths the code builds. -/
def claimedRemotePath (yr mn d : String) : String :=
  "v1.0/30min/8km/" ++ yr ++ "/" ++ mn ++ "/cmorph_v1.0/30min/8km/" ++ yr ++ "/" ++ mn ++
    "/CMORPH_V1.0_ADJ_8km-30min_" ++ yr ++ mn ++ d ++ "00.nc"

/-! Helper lemmas about the embedded operations. -/

/-- A write is immediately readable back. -/
@[simp] theorem lookupFile_writeFile (fs : FS) (p : String) (f : File) :
    lookupFile (writeFile fs p f) p = some f := by
  simp [writeFile, lookupFile]

/-- Ties-to-even rounding leaves integers untouched. -/
theorem rhe_intCast (z : ℤ) : rhe (z : ℚ) = z := by
  unfold rhe
  rw [Int.floor_intCast]
  norm_num

/-- Ties-to-even rounding moves a value up by at most one half. -/
theorem rhe_le (x : ℚ) : (rhe x : ℚ) ≤ x + 1/2 := by
  have h0 := Int.floor_le x
  have h1 := Int.lt_floor_add_one x
  unfold rhe
  split
  · linarith
  · split
    · push_cast
      linarith
    · split <;> push_cast <;> linarith

/-- Ties-to-even rounding moves a value down by at most one half. -/
theorem le_rhe (x : ℚ) : x - 1/2 ≤ (rhe x : ℚ) := by
  have h0 := Int.floor_le x
  have h1 := Int.lt_floor_add_one x
  unfold rhe
  split
  · linarith
  · split
    · push_cast
      linarith
    · split <;> push_cast <;> linarith

/-- The floor base-2 logarithm is determined by its binade sandwich. -/
theorem int_log2_eq {q : ℚ} {e : ℤ} (hq : 0 < q)
    (h1 : (2 : ℚ) ^ e ≤ q) (h2 : q < (2 : ℚ) ^ (e + 1)) : Int.log 2 q = e := by
  have hcast : ((2 : ℕ) : ℚ) = (2 : ℚ) := by norm_num
  have ha := (Int.zpow_le_iff_le_log (b := 2) (by norm_num) hq).mp (by rw [hcast]; exact h1)
  have hb := (Int.lt_zpow_iff_log_lt (b := 2) (by norm_num) hq).mp (by rw [hcast]; exact h2)
  omega

/-- binary64 rounding of a positive value takes the positive branch. -/
theorem f64round_of_pos {q : ℚ} (hq : 0 < q) : f64round q = f64roundPos q := by
  unfold f64round
  rw [if_neg (ne_of_gt hq), if_neg (by linarith)]

/-- binary64 rounding of a positive value errs by at most half an ulp. -/
theorem f64round_err {q : ℚ} (hq : 0 < q) :
    |f64round q - q| ≤ (2 : ℚ) ^ (Int.log 2 q - 53) := by
  rw [f64round_of_pos hq]
  unfold f64roundPos
  set e := Int.log 2 q with he
  set s := q * (2 : ℚ) ^ ((52 : ℤ) - e) with hs
  have hq_eq : q = s * (2 : ℚ) ^ (e - (52 : ℤ)) := by
    rw [hs, mul_assoc, ← zpow_add₀ (two_ne_zero (α := ℚ))]
    norm_num
  have hpow : (0 : ℚ) < (2 : ℚ) ^ (e - (52 : ℤ)) := zpow_pos (by norm_num) _
  have herr : |(rhe s : ℚ) - s| ≤ 1/2 := by
    rw [abs_sub_le_iff]
    constructor
    · linarith [rhe_le s]
    · linarith [le_rhe s]
  calc |(rhe s : ℚ) * (2 : ℚ) ^ (e - (52 : ℤ)) - q|
      = |(rhe s : ℚ) - s| * (2 : ℚ) ^ (e - (52 : ℤ)) := by
        rw [hq_eq, ← sub_mul, abs_mul, abs_of_pos hpow]
    _ ≤ (1/2) * (2 : ℚ) ^ (e - (52 : ℤ)) := by
        exact mul_le_mul_of_nonneg_right herr (le_of_lt hpow)
    _ = (2 : ℚ) ^ (e - 53) := by
        rw [show e - 53 = (-1) + (e - 52) by ring, zpow_add₀ (two_ne_zero (α := ℚ))]
        norm_num

/-- binary64 rounding of a positive value stays in its closed binade. -/
theorem f64round_mem_binade {q : ℚ} (hq : 0 < q) :
    (2 : ℚ) ^ (Int.log 2 q) ≤ f64round q ∧ f64round q ≤ (2 : ℚ) ^ (Int.log 2 q + 1) := by
  rw [f64round_of_pos hq]
  unfold f64roundPos
  set e := Int.log 2 q with he
  set s := q * (2 : ℚ) ^ ((52 : ℤ) - e) with hs
  have hcast : ((2 : ℕ) : ℚ) = (2 : ℚ) := by norm_num
  have hlow : (2 : ℚ) ^ e ≤ q := by
    have h := Int.zpow_log_le_self (b := 2) (R := ℚ) (by norm_num) hq
    rwa [hcast, ← he] at h
  have hhigh : q < (2 : ℚ) ^ (e + 1) := by
    have h := Int.lt_zpow_succ_log_self (b := 2) (R := ℚ) (by norm_num) q
    rwa [hcast, ← he] at h
  have hpow : (0 : ℚ) < (2 : ℚ) ^ ((52 : ℤ) - e) := zpow_pos (by norm_num) _
  have hpow2 : (0 : ℚ) < (2 : ℚ) ^ (e - (52 : ℤ)) := zpow_pos (by norm_num) _
  have hs_low : ((2 : ℚ) ^ (52 : ℤ)) ≤ s := by
    rw [hs]
    calc (2 : ℚ) ^ (52 : ℤ) = (2 : ℚ) ^ e * (2 : ℚ) ^ ((52 : ℤ) - e) := by
          rw [← zpow_add₀ (two_ne_zero (α := ℚ))]; ring_nf
      _ ≤ q * (2 : ℚ) ^ ((52 : ℤ) - e) :=
          mul_le_mul_of_nonneg_right hlow (le_of_lt hpow)
  have hs_high : s < (2 : ℚ) ^ (53 : ℤ) := by
    rw [hs]
    calc q * (2 : ℚ) ^ ((52 : ℤ) - e) < (2 : ℚ) ^ (e + 1) * (2 : ℚ) ^ ((52 : ℤ) - e) :=
          mul_lt_mul_of_pos_right hhigh hpow
      _ = (2 : ℚ) ^ (53 : ℤ) := by
          rw [← zpow_add₀ (two_ne_zero (α := ℚ))]; ring_nf
  have hrhe_low : (2 ^ 52 : ℤ) ≤ rhe s := by
    have h1 : (2 : ℚ) ^ (52 : ℤ) - 1/2 ≤ (rhe s : ℚ) := by linarith [le_rhe s]
    have h2 : ((2 ^ 52 - 1 : ℤ) : ℚ) < (rhe s : ℚ) := by
      push_cast
      norm_num at h1 ⊢
      linarith
    have h3 : (2 ^ 52 - 1 : ℤ) < rhe s := by exact_mod_cast h2
    omega
  have hrhe_high : rhe s ≤ (2 ^ 53 : ℤ) := by
    have h1 : (rhe s : ℚ) ≤ (2 : ℚ) ^ (53 : ℤ) + 1/2 := by linarith [rhe_le s]
    have h2 : (rhe s : ℚ) < ((2 ^ 53 + 1 : ℤ) : ℚ) := by
      push_cast
      norm_num at h1 ⊢
      linarith
    have h3 : rhe s < 2 ^ 53 + 1 := by exact_mod_cast h2
    omega
  have hcast52 : ((2 ^ 52 : ℤ) : ℚ) = (2 : ℚ) ^ (52 : ℤ) := by push_cast; norm_num
  have hcast53 : ((2 ^ 53 : ℤ) : ℚ) = (2 : ℚ) ^ (53 : ℤ) := by push_cast; norm_num
  constructor
  · calc (2 : ℚ) ^ e = (2 : ℚ) ^ (52 : ℤ) * (2 : ℚ) ^ (e - (52 : ℤ)) := by
          rw [← zpow_add₀ (two_ne_zero (α := ℚ))]; ring_nf
      _ ≤ (rhe s : ℚ) * (2 : ℚ) ^ (e - (52 : ℤ)) := by
          refine mul_le_mul_of_nonneg_right ?_ (le_of_lt hpow2)
          rw [← hcast52]
          exact_mod_cast hrhe_low
  · calc (rhe s : ℚ) * (2 : ℚ) ^ (e - (52 : ℤ))
        ≤ (2 : ℚ) ^ (53 : ℤ) * (2 : ℚ) ^ (e - (52 : ℤ)) := by
          refine mul_le_mul_of_nonneg_right ?_ (le_of_lt hpow2)
          rw [← hcast53]
          exact_mod_cast hrhe_high
      _ = (2 : ℚ) ^ (e + 1) := by
          rw [← zpow_add₀ (two_ne_zero (α := ℚ))]; ring_nf

/-- binary64 rounding fixes zero. -/
theorem f64round_zero : f64round (0 : ℚ) = 0 := by
  unfold f64round
  norm_num

/-- binary64 rounding fixes one: an equal-size ratio divides exactly. -/
theorem f64round_one : f64round (1 : ℚ) = 1 := by
  rw [f64round_of_pos one_pos]
  unfold f64roundPos
  rw [Int.log_one_right]
  have h1 : (1 : ℚ) * (2 : ℚ) ^ ((52 : ℤ) - 0) = ((4503599627370496 : ℤ) : ℚ) := by
    push_cast
    norm_num
  rw [h1, rhe_intCast]
  push_cast
  norm_num

/-- binary64 rounding fixes one hundred, which is exactly representable. -/
theorem f64round_hundred : f64round (100 : ℚ) = 100 := by
  have hlog : Int.log 2 (100 : ℚ) = 6 := by
    apply int_log2_eq (by norm_num) <;> norm_num
  rw [f64round_of_pos (by norm_num)]
  unfold f64roundPos
  rw [hlog]
  have h1 : (100 : ℚ) * (2 : ℚ) ^ ((52 : ℤ) - 6) = ((7036874417766400 : ℤ) : ℚ) := by
    push_cast
    norm_num
  rw [h1, rhe_intCast]
  push_cast
  norm_num

/-- An equal-size ratio yields percent exactly 100 under float semantics. -/
theorem percent_eq_self {x : ℚ} (hx : x ≠ 0) : pyMul (pyDiv x x) 100 = 100 := by
  unfold pyDiv pyMul
  rw [div_self hx, f64round_one, one_mul, f64round_hundred]

/-- The near-miss ratio of the counterexample: (2^54 - 1)/2^54 is exactly
half an ulp below one, the tie rounds to the even significand, the
division returns exactly 1.0 and the percentage is exactly 100. -/
theorem f64_near_miss :
    pyMul (pyDiv ((2 ^ 54 - 1 : ℚ)) ((2 ^ 54 : ℚ))) 100 = 100 := by
  have hq : ((2 ^ 54 - 1 : ℚ)) / ((2 ^ 54 : ℚ)) = 1 - (2 : ℚ) ^ (-54 : ℤ) := by
    rw [div_eq_iff (by norm_num)]
    norm_num
  have hlog : Int.log 2 ((1 : ℚ) - (2 : ℚ) ^ (-54 : ℤ)) = -1 := by
    apply int_log2_eq (by norm_num) <;> norm_num
  unfold pyDiv
  rw [hq, f64round_of_pos (by norm_num)]
  unfold f64roundPos
  rw [hlog]
  have h1 : ((1 : ℚ) - (2 : ℚ) ^ (-54 : ℤ)) * (2 : ℚ) ^ ((52 : ℤ) - (-1)) =
      ((9007199254740991 : ℤ) : ℚ) + 1/2 := by
    push_cast
    rw [sub_mul, ← zpow_add₀ (two_ne_zero (α := ℚ))]
    norm_num
  have hfl : ⌊((9007199254740991 : ℤ) : ℚ) + 1/2⌋ = 9007199254740991 := by
    rw [Int.floor_eq_iff]
    constructor <;> push_cast <;> norm_num
  have hrhe : rhe (((9007199254740991 : ℤ) : ℚ) + 1/2) = 9007199254740992 := by
    unfold rhe
    rw [hfl]
    have hfrac : ((9007199254740991 : ℤ) : ℚ) + 1/2 - ((9007199254740991 : ℤ) : ℚ) = 1/2 := by
      ring
    rw [hfrac]
    rw [if_neg (by norm_num), if_neg (by norm_num)]
    rw [if_neg (by decide)]
    norm_num
  rw [h1, hrhe]
  have h2 : ((9007199254740992 : ℤ) : ℚ) * (2 : ℚ) ^ ((-1 : ℤ) - 52) = 1 := by
    push_cast
    norm_num
  rw [h2]
  unfold pyMul
  rw [one_mul, f64round_hundred]

/-- A percent of exactly 100 forces the size ratio within one part in
2^52 of one: the multiplication pins the rounded quotient to the doubles
mapped onto exactly 100, of which only 1.0 exists, and the division errs
by at most half an ulp around one. -/
theorem complete_implies_close {s f : ℕ} (hf : f ≠ 0)
    (h : pyMul (pyDiv (s : ℚ) (f : ℚ)) 100 = 100) :
    |(s : ℚ) / (f : ℚ) - 1| ≤ (2 : ℚ) ^ (-52 : ℤ) := by
  have hf0 : (0 : ℚ) < (f : ℚ) := by exact_mod_cast Nat.pos_of_ne_zero hf
  rcases Nat.eq_zero_or_pos s with hs0 | hs0
  · exfalso
    subst hs0
    unfold pyDiv pyMul at h
    rw [Nat.cast_zero, zero_div, f64round_zero, zero_mul, f64round_zero] at h
    norm_num at h
  set q : ℚ := (s : ℚ) / (f : ℚ) with hqdef
  have hq0 : 0 < q := div_pos (by exact_mod_cast hs0) hf0
  set d : ℚ := f64round q with hddef
  have hbinq := f64round_mem_binade hq0
  rw [← hddef] at hbinq
  have hd0 : 0 < d := lt_of_lt_of_le (zpow_pos (by norm_num) _) hbinq.1
  have hy0 : (0 : ℚ) < d * 100 := by positivity
  unfold pyMul pyDiv at h
  rw [← hqdef, ← hddef] at h
  have hbiny := f64round_mem_binade hy0
  rw [h] at hbiny
  set ey := Int.log 2 (d * 100) with heydef
  have hey : ey = 6 := by
    have hle : ey ≤ 6 := by
      by_contra hgt
      push_neg at hgt
      have h7 : (2 : ℚ) ^ (7 : ℤ) ≤ (2 : ℚ) ^ ey :=
        zpow_le_zpow_right₀ (by norm_num) (by omega)
      have := le_trans h7 hbiny.1
      norm_num at this
    have hge : 6 ≤ ey := by
      by_contra hlt
      push_neg at hlt
      have h6 : (2 : ℚ) ^ (ey + 1) ≤ (2 : ℚ) ^ (6 : ℤ) :=
        zpow_le_zpow_right₀ (by norm_num) (by omega)
      have := le_trans hbiny.2 h6
      norm_num at this
    omega
  have herry := f64round_err hy0
  rw [h, ← heydef, hey] at herry
  have herry2 : |d * 100 - 100| ≤ (2 : ℚ) ^ (-47 : ℤ) := by
    rw [abs_sub_comm] at herry
    calc |d * 100 - 100| ≤ (2 : ℚ) ^ ((6 : ℤ) - 53) := herry
      _ = (2 : ℚ) ^ (-47 : ℤ) := by norm_num
  have hprod : |d * 100 - 100| = |d - 1| * 100 := by
    rw [show d * 100 - 100 = (d - 1) * 100 by ring, abs_mul,
      abs_of_pos (show (0 : ℚ) < 100 by norm_num)]
  have hd1 : |d - 1| ≤ (2 : ℚ) ^ (-47 : ℤ) / 100 := by
    rw [hprod] at herry2
    rw [le_div_iff₀ (show (0 : ℚ) < 100 by norm_num)]
    exact herry2
  have habs := abs_le.mp hd1
  have hsmall : (2 : ℚ) ^ (-47 : ℤ) / 100 < 1 / 2 := by norm_num
  set eq' := Int.log 2 q with heq'
  have he_le : eq' ≤ 0 := by
    by_contra hgt
    push_neg at hgt
    have h2le : (2 : ℚ) ^ (1 : ℤ) ≤ (2 : ℚ) ^ eq' :=
      zpow_le_zpow_right₀ (by norm_num) (by omega)
    have hd2 : (2 : ℚ) ≤ d := by
      calc (2 : ℚ) = (2 : ℚ) ^ (1 : ℤ) := by norm_num
        _ ≤ (2 : ℚ) ^ eq' := h2le
        _ ≤ d := hbinq.1
    linarith [habs.2]
  have he_ge : -1 ≤ eq' := by
    by_contra hlt
    push_neg at hlt
    have h2le : (2 : ℚ) ^ (eq' + 1) ≤ (2 : ℚ) ^ (-1 : ℤ) :=
      zpow_le_zpow_right₀ (by norm_num) (by omega)
    have hd_le : d ≤ (2 : ℚ) ^ (-1 : ℤ) := le_trans hbinq.2 h2le
    rw [show ((2 : ℚ) ^ (-1 : ℤ)) = 1 / 2 by norm_num] at hd_le
    linarith [habs.1]
  have herrq := f64round_err hq0
  rw [← hddef, ← heq'] at herrq
  have herrq2 : |d - q| ≤ (2 : ℚ) ^ (-53 : ℤ) :=
    le_trans herrq (zpow_le_zpow_right₀ (by norm_num) (by omega))
  have htri : |q - 1| ≤ |d - q| + |d - 1| := by
    have hx : q - 1 = (d - 1) - (d - q) := by ring
    calc |q - 1| = |(d - 1) - (d - q)| := by rw [hx]
      _ ≤ |d - 1| + |d - q| := abs_sub _ _
      _ = |d - q| + |d - 1| := by ring
  have hfinal : (2 : ℚ) ^ (-53 : ℤ) + (2 : ℚ) ^ (-47 : ℤ) / 100 ≤ (2 : ℚ) ^ (-52 : ℤ) := by
    norm_num
  calc |q - 1| ≤ |d - q| + |d - 1| := htri
    _ ≤ (2 : ℚ) ^ (-53 : ℤ) + (2 : ℚ) ^ (-47 : ℤ) / 100 := add_le_add herrq2 hd1
    _ ≤ (2 : ℚ) ^ (-52 : ℤ) := hfinal

/-- Below 2^52 a ratio within one part in 2^52 of one forces equality of
the integer sizes. -/
theorem close_implies_eq {s f : ℕ} (hf : f ≠ 0) (hlt : f < 2 ^ 52)
    (h : |(s : ℚ) / (f : ℚ) - 1| ≤ (2 : ℚ) ^ (-52 : ℤ)) : s = f := by
  have hf0 : (0 : ℚ) < (f : ℚ) := by exact_mod_cast Nat.pos_of_ne_zero hf
  have hsub : (s : ℚ) / f - 1 = ((s : ℚ) - f) / f := by field_simp
  rw [hsub, abs_div, abs_of_pos hf0, div_le_iff₀ hf0] at h
  have hlt1 : (2 : ℚ) ^ (-52 : ℤ) * (f : ℚ) < 1 := by
    have hfq : (f : ℚ) < (2 : ℚ) ^ (52 : ℕ) := by exact_mod_cast hlt
    calc (2 : ℚ) ^ (-52 : ℤ) * (f : ℚ) < (2 : ℚ) ^ (-52 : ℤ) * (2 : ℚ) ^ (52 : ℕ) := by
          exact mul_lt_mul_of_pos_left hfq (zpow_pos (by norm_num) _)
      _ = 1 := by norm_num
  have habs : |(s : ℚ) - (f : ℚ)| < 1 := lt_of_le_of_lt h hlt1
  have h1 := abs_lt.mp habs
  have h2 : (s : ℤ) - (f : ℤ) < 1 := by exact_mod_cast h1.2
  have h3 : (-1 : ℤ) < (s : ℤ) - (f : ℤ) := by exact_mod_cast h1.1
  omega

/-- check_file_status can only classify as complete or incomplete. -/
theorem check_file_status_ok_cases (fs : FS) (fp : String) (n : Nat) (s : String)
    (h : check_file_status fs fp n = .ok s) : s = "complete" ∨ s = "incomplete" := by
  unfold check_file_status at h
  split at h
  · exact absurd h (by simp)
  · split at h
    · exact absurd h (by simp)
    · split at h
      · left; exact (Except.ok.injEq _ _ ▸ h).symm ▸ rfl
      · right; exact (Except.ok.injEq _ _ ▸ h).symm ▸ rfl

/-- A missing Content-length header raises KeyError at once. -/
theorem downloadFileWith_none (cmdt : Response → Option File → Bool) (req : Response)
    (fb : String) (u : Bool) (fs : FS) (now : Nat) (h : req.contentLength = none) :
    downloadFileWith cmdt req fb u fs now = .error .keyError := by
  simp [downloadFileWith, h]

/-- In update mode a positive staleness check resolves to skip with the
filesystem untouched. -/
theorem downloadFileWith_skip (cmdt : Response → Option File → Bool) (req : Response)
    (fb : String) (fs : FS) (now : Nat) (n : Nat) (hn : req.contentLength = some n)
    (hc : cmdt req (lookupFile fs fb) = true) :
    downloadFileWith cmdt req fb true fs now = .ok ("skip", fs) := by
  simp [downloadFileWith, hn, hc]

/-- On the fetch path with a nonzero declared size, the body is written
and the status is the percent-complete classification. -/
theorem downloadFileWith_fetch (cmdt : Response → Option File → Bool) (req : Response)
    (fb : String) (u : Bool) (fs : FS) (now : Nat) (n : Nat)
    (hn : req.contentLength = some n) (hn0 : n ≠ 0)
    (h : u = false ∨ cmdt req (lookupFile fs fb) = false) :
    downloadFileWith cmdt req fb u fs now =
      .ok (if pyMul (pyDiv (req.body.flatten.length : ℚ) (n : ℚ)) 100 = 100 then "complete"
           else "incomplete",
           writeFile fs fb ⟨req.body.flatten, now⟩) := by
  rcases h with h | h <;>
    simp [downloadFileWith, hn, h, check_file_status, hn0] <;>
      split <;> rename_i heq <;> split at heq <;> simp_all

/-- On the fetch path with declared size zero the final completeness
check divides by zero. -/
theorem downloadFileWith_zero (cmdt : Response → Option File → Bool) (req : Response)
    (fb : String) (u : Bool) (fs : FS) (now : Nat) (hn : req.contentLength = some 0)
    (h : u = false ∨ cmdt req (lookupFile fs fb) = false) :
    downloadFileWith cmdt req fb u fs now = .error .zeroDivision := by
  rcases h with h | h <;> simp [downloadFileWith, hn, h, check_file_status]

/-- The fetch path never reports skip. -/
theorem downloadFileWith_no_skip (cmdt : Response → Option File → Bool) (req : Response)
    (fb : String) (u : Bool) (fs : FS) (now : Nat) (n : Nat)
    (hn : req.contentLength = some n)
    (h : u = false ∨ cmdt req (lookupFile fs fb) = false) (st : String) (fs2 : FS)
    (hok : downloadFileWith cmdt req fb u fs now = .ok (st, fs2)) : st ≠ "skip" := by
  by_cases hn0 : n = 0
  · subst hn0
    rw [downloadFileWith_zero cmdt req fb u fs now hn h] at hok
    exact absurd hok (by simp)
  · rw [downloadFileWith_fetch cmdt req fb u fs now n hn hn0 h] at hok
    simp at hok
    intro hskip
    rw [hskip] at hok
    rcases hok with ⟨h1, _⟩
    split at h1 <;> simp at h1

/-- Inversion: a run of download_file that returns skip returns the
filesystem it was given. -/
theorem downloadFileWith_skip_inv (cmdt : Response → Option File → Bool) (req : Response)
    (fb : String) (u : Bool) (fs : FS) (now : Nat) (st : String) (fs2 : FS)
    (h : downloadFileWith cmdt req fb u fs now = .ok (st, fs2)) (hst : st = "skip") :
    fs2 = fs := by
  cases hcl : req.contentLength with
  | none => rw [downloadFileWith_none cmdt req fb u fs now hcl] at h; exact absurd h (by simp)
  | some n =>
    by_cases hu : u
    · by_cases hc : cmdt req (lookupFile fs fb) = true
      · subst hu
        rw [downloadFileWith_skip cmdt req fb fs now n hcl hc] at h
        simp at h
        exact h.2.symm
      · have hc2 : cmdt req (lookupFile fs fb) = false := by
          revert hc; cases cmdt req (lookupFile fs fb) <;> simp
        exact absurd (downloadFileWith_no_skip cmdt req fb u fs now n hcl (Or.inr hc2) st fs2 h) (by simp [hst])
    · have hu2 : u = false := by revert hu; cases u <;> simp
      exact absurd (downloadFileWith_no_skip cmdt req fb u fs now n hcl (Or.inl hu2) st fs2 h) (by simp [hst])

/-- classify touches the updated bucket exactly as selUpd prescribes. -/
theorem classify_updated (b : Buckets) (f : String) (u : Bool) (s : String) :
    (classify b f u s).updated = b.updated ++ (selUpd (f, u, s)).toList := by
  unfold classify selUpd
  by_cases hs : s = "complete"
  · by_cases hu : u <;> simp [hs, hu]
  · by_cases he : s = "incomplete" <;> simp [hs, he]

/-- classify touches the new bucket exactly as selNew prescribes. -/
theorem classify_new (b : Buckets) (f : String) (u : Bool) (s : String) :
    (classify b f u s).new = b.new ++ (selNew (f, u, s)).toList := by
  unfold classify selNew
  by_cases hs : s = "complete"
  · by_cases hu : u <;> simp [hs, hu]
  · by_cases he : s = "incomplete" <;> simp [hs, he]

/-- classify touches the error bucket exactly as selErr prescribes. -/
theorem classify_error (b : Buckets) (f : String) (u : Bool) (s : String) :
    (classify b f u s).error = b.error ++ (selErr (f, u, s)).toList := by
  unfold classify selErr
  by_cases hs : s = "complete"
  · by_cases hu : u <;> simp [hs, hu]
  · by_cases he : s = "incomplete" <;> simp [hs, he]

/-- A selUpd hit pins the whole trace entry down. -/
theorem selUpd_eq_some {e : String × Bool × String} {x : String} (h : selUpd e = some x) :
    e = (x, true, "complete") := by
  obtain ⟨f, u, s⟩ := e
  unfold selUpd at h
  split at h <;> simp_all

/-- A selNew hit pins the whole trace entry down. -/
theorem selNew_eq_some {e : String × Bool × String} {x : String} (h : selNew e = some x) :
    e = (x, false, "complete") := by
  obtain ⟨f, u, s⟩ := e
  unfold selNew at h
  split at h <;> simp_all

/-- A selErr hit pins the path and the status down. -/
theorem selErr_eq_some {e : String × Bool × String} {x : String} (h : selErr e = some x) :
    e.1 = x ∧ e.2.2 = "incomplete" := by
  obtain ⟨f, u, s⟩ := e
  unfold selErr at h
  split at h <;> simp_all

/-- Decomposition of a completed download loop: the final trace extends
the initial one by one entry per processed target in order, and each
bucket extends the initial one by exactly the selector image of the new
trace entries. -/
theorem runWith_ok (cmdt : Response → Option File → Bool) (remote : String → Response)
    (dir : String) (now : Nat) :
    ∀ (l : List String) (fs : FS) (b : Buckets) (tr : Trace)
      (b2 : Buckets) (tr2 : Trace) (fs2 : FS),
      runWith cmdt remote dir now l fs b tr = .ok (b2, tr2, fs2) →
      ∃ d : Trace, tr2 = tr ++ d ∧ d.map (fun e => e.1) = l ∧
        b2.updated = b.updated ++ d.filterMap selUpd ∧
        b2.new = b.new ++ d.filterMap selNew ∧
        b2.error = b.error ++ d.filterMap selErr := by
  intro l
  induction l with
  | nil =>
    intro fs b tr b2 tr2 fs2 h
    simp only [runWith] at h
    obtain ⟨hb, htr, _⟩ := by simpa using h
    exact ⟨[], by simp [← hb, ← htr]⟩
  | cons f rest ih =>
    intro fs b tr b2 tr2 fs2 h
    simp only [runWith] at h
    cases hdl : downloadFileWith cmdt (remote (remote_of f)) (file_base_of dir f)
        ((lookupFile fs (file_base_of dir f)).isSome) fs now with
    | error e => rw [hdl] at h; exact absurd h (by simp)
    | ok pair =>
      obtain ⟨st, fs1⟩ := pair
      rw [hdl] at h
      obtain ⟨d, hd1, hd2, hd3, hd4, hd5⟩ := ih fs1 _ _ b2 tr2 fs2 h
      refine ⟨(f, (lookupFile fs (file_base_of dir f)).isSome, st) :: d, ?_, ?_, ?_, ?_, ?_⟩
      · rw [hd1]; simp
      · simp [hd2]
      · rw [hd3, classify_updated, List.filterMap_cons]
        cases hsel : selUpd (f, (lookupFile fs (file_base_of dir f)).isSome, st) <;>
          simp [hsel]
      · rw [hd4, classify_new, List.filterMap_cons]
        cases hsel : selNew (f, (lookupFile fs (file_base_of dir f)).isSome, st) <;>
          simp [hsel]
      · rw [hd5, classify_error, List.filterMap_cons]
        cases hsel : selErr (f, (lookupFile fs (file_base_of dir f)).isSome, st) <;>
          simp [hsel]

/-- For a single valid month the plan has exactly the month-range day
count of entries. -/
theorem get_filelist_single (yr mn : String) (d : Nat)
    (hm : monthrange_days (strToNat yr) (strToNat mn) = some d) :
    ∃ l, get_filelist yr [mn] = some l ∧ l.length = d := by
  simp only [get_filelist, hm]
  exact ⟨_, rfl, by simp⟩

/-- The day count table only yields the four possible month lengths on
valid months, with the leap day only for February. -/
theorem mdays_cases (y m : Nat) (h1 : 1 ≤ m) (h2 : m ≤ 12) :
    (mdaysTable m + if m = 2 ∧ isleap y then 1 else 0) = 28 ∨
    (mdaysTable m + if m = 2 ∧ isleap y then 1 else 0) = 29 ∨
    (mdaysTable m + if m = 2 ∧ isleap y then 1 else 0) = 30 ∨
    (mdaysTable m + if m = 2 ∧ isleap y then 1 else 0) = 31 := by
  interval_cases m <;> by_cases hl : isleap y <;> simp [mdaysTable, hl]

/-- Every entry of the plan is the day file of one requested month: the
fixed directory prefix for that year and month followed by the dated file
name, the day string ranging over the month-range day numbers. -/
theorem get_filelist_mem (yr : String) (mns : List String) (l : List String)
    (h : get_filelist yr mns = some l) (f : String) (hf : f ∈ l) :
    ∃ mn x, mn ∈ mns ∧
      f = "v1.0/30min/8km/" ++ yr ++ "/" ++ mn ++ "/" ++
          ("CMORPH_V1.0_ADJ_8km-30min_" ++ yr ++ mn ++ x ++ "00.nc") ∧
      ∃ lastday i, monthrange_days (strToNat yr) (strToNat mn) = some lastday ∧
        i ∈ List.range' 1 lastday ∧ x = fmt2 i := by
  induction mns generalizing l with
  | nil =>
    simp only [get_filelist] at h
    obtain rfl := Option.some.inj h
    simp at hf
  | cons mn rest ih =>
    simp only [get_filelist] at h
    cases hmr : monthrange_days (strToNat yr) (strToNat mn) with
    | none => rw [hmr] at h; exact absurd h (by simp)
    | some lastday =>
      rw [hmr] at h
      cases hrest : get_filelist yr rest with
      | none => rw [hrest] at h; exact absurd h (by simp)
      | some tail =>
        rw [hrest] at h
        have hl : _ = l := Option.some.inj h
        rw [← hl] at hf
        rcases List.mem_append.mp hf with hf1 | hf2
        · obtain ⟨x, hx, hfx⟩ := List.mem_map.mp hf1
          obtain ⟨i, hi, hix⟩ := List.mem_map.mp hx
          exact ⟨mn, x, List.mem_cons_self mn rest, hfx.symm,
            lastday, i, hmr, hi, hix.symm⟩
        · obtain ⟨mn2, x, hmn2, hfx, rest2⟩ := ih tail hrest hf2
          exact ⟨mn2, x, List.mem_cons_of_mem mn hmn2, hfx, rest2⟩

/-! Claims. -/

/-- C1 counterexample: the program classifies a download of 2^54 - 1
bytes against a declared content length of 2^54 as complete, although the
sizes differ: the ratio is exactly half an ulp below one, binary64
rounding carries the tie to 1.0 and the percentage to exactly 100. -/
theorem claim_C1_counterexample :
    download_file ⟨200, "", some (2 ^ 54), [List.replicate (2 ^ 54 - 1) 0], 0⟩ "d/a"
        false [] 7 =
      .ok ("complete", [("d/a", ⟨List.replicate (2 ^ 54 - 1) 0, 7⟩)]) ∧
    (List.replicate (2 ^ 54 - 1) 0).length ≠ 2 ^ 54 := by
  constructor
  · rw [download_file,
      downloadFileWith_fetch check_mdt _ "d/a" false [] 7 (2 ^ 54) rfl (by norm_num)
        (Or.inl rfl)]
    dsimp only
    have hflat : ([List.replicate (2 ^ 54 - 1) 0] : List (List Nat)).flatten =
        List.replicate (2 ^ 54 - 1) 0 := by
      rw [List.flatten_cons, List.flatten_nil, List.append_nil]
    rw [hflat, List.length_replicate]
    have hcast1 : ((2 ^ 54 - 1 : ℕ) : ℚ) = (2 ^ 54 - 1 : ℚ) := by
      rw [Nat.cast_sub (by norm_num)]
      push_cast
      norm_num
    have hcast2 : ((2 ^ 54 : ℕ) : ℚ) = (2 ^ 54 : ℚ) := by
      push_cast
      norm_num
    rw [hcast1, hcast2, if_pos f64_near_miss]
    rfl
  · rw [List.length_replicate]
    norm_num

/-- C1 as amended: for every download attempt that runs the completeness
check (nonzero declared length n, not resolved to skip), the target is
classified complete whenever the final on-disk size equals n, and a
target classified incomplete always has on-disk size different from n;
and when the declared content length is below 2^52, where binary64
rounding of the size ratio is exact enough, the full biconditional holds:
complete exactly when the sizes are equal. -/
theorem claim_C1_completeness_classification (req : Response) (file_base : String)
    (update : Bool) (fs : FS) (now : Nat) (n : Nat) (st : String) (fs2 : FS)
    (hn : req.contentLength = some n) (hn0 : n ≠ 0)
    (h : download_file req file_base update fs now = .ok (st, fs2)) (hskip : st ≠ "skip") :
    ∃ f, lookupFile fs2 file_base = some f ∧
      (f.bytes.length = n → st = "complete") ∧
      (st = "incomplete" → f.bytes.length ≠ n) ∧
      (n < 2 ^ 52 → (st = "complete" ↔ f.bytes.length = n)) := by
  have hbr : update = false ∨ check_mdt req (lookupFile fs file_base) = false := by
    by_cases hu : update
    · right
      by_cases hc : check_mdt req (lookupFile fs file_base) = true
      · exfalso
        apply hskip
        rw [download_file, hu, downloadFileWith_skip check_mdt req file_base fs now n hn hc] at h
        exact (Prod.mk.injEq _ _ _ _ ▸ Except.ok.inj h).1.symm
      · revert hc; cases check_mdt req (lookupFile fs file_base) <;> simp
    · left; revert hu; cases update <;> simp
  rw [download_file, downloadFileWith_fetch check_mdt req file_base update fs now n hn hn0 hbr] at h
  have hpair := Except.ok.inj h
  rw [Prod.mk.injEq] at hpair
  obtain ⟨hst, hfs⟩ := hpair
  have hnq : ((n : ℚ)) ≠ 0 := Nat.cast_ne_zero.mpr hn0
  refine ⟨⟨req.body.flatten, now⟩,
    by rw [← hfs]; exact lookupFile_writeFile fs file_base _, ?_, ?_, ?_⟩
  · intro hL
    have hL2 : req.body.flatten.length = n := hL
    have hcond : pyMul (pyDiv (req.body.flatten.length : ℚ) (n : ℚ)) 100 = 100 := by
      rw [hL2]
      exact percent_eq_self hnq
    rw [if_pos hcond] at hst
    exact hst.symm
  · intro hinc hL
    have hL2 : req.body.flatten.length = n := hL
    have hcond : pyMul (pyDiv (req.body.flatten.length : ℚ) (n : ℚ)) 100 = 100 := by
      rw [hL2]
      exact percent_eq_self hnq
    rw [if_pos hcond] at hst
    rw [← hst] at hinc
    exact absurd hinc (by decide)
  · intro hlt
    constructor
    · intro hcomp
      by_cases hcond : pyMul (pyDiv (req.body.flatten.length : ℚ) (n : ℚ)) 100 = 100
      · exact close_implies_eq hn0 hlt (complete_implies_close hn0 hcond)
      · rw [if_neg hcond] at hst
        rw [← hst] at hcomp
        exact absurd hcomp (by decide)
    · intro hL
      have hL2 : req.body.flatten.length = n := hL
      have hcond : pyMul (pyDiv (req.body.flatten.length : ℚ) (n : ℚ)) 100 = 100 := by
        rw [hL2]
        exact percent_eq_self hnq
      rw [if_pos hcond] at hst
      exact hst.symm

/-- Witness for C1 as amended at a concrete complete download. -/
theorem claim_C1_witness :
    (⟨200, "", some 3, [[9, 9, 9]], 0⟩ : Response).contentLength = some 3 ∧
    (3 : Nat) ≠ 0 ∧
    download_file ⟨200, "", some 3, [[9, 9, 9]], 0⟩ "d/a" false [] 7 =
      .ok ("complete", [("d/a", ⟨[9, 9, 9], 7⟩)]) ∧
    ("complete" : String) ≠ "skip" ∧
    ∃ f, lookupFile [("d/a", ⟨[9, 9, 9], 7⟩)] "d/a" = some f ∧
      (f.bytes.length = 3 → ("complete" : String) = "complete") ∧
      (("complete" : String) = "incomplete" → f.bytes.length ≠ 3) ∧
      (3 < 2 ^ 52 → (("complete" : String) = "complete" ↔ f.bytes.length = 3)) :=
  ⟨rfl, by decide,
   by norm_num [download_file, downloadFileWith, check_file_status, writeFile, lookupFile,
     percent_eq_self],
   by decide,
   claim_C1_completeness_classification ⟨200, "", some 3, [[9, 9, 9]], 0⟩ "d/a" false [] 7 3
     "complete" [("d/a", ⟨[9, 9, 9], 7⟩)] rfl (by decide)
     (by norm_num [download_file, downloadFileWith, check_file_status, writeFile, lookupFile,
       percent_eq_self])
     (by decide)⟩

/-- C6: a target processed in update mode that resolves to skip leaves
the filesystem, and in particular the pre-existing local file, exactly as
it was: no byte is written. -/
theorem claim_C6_skip_leaves_file_unchanged (req : Response) (file_base : String)
    (fs : FS) (now : Nat) (fs2 : FS)
    (h : download_file req file_base true fs now = .ok ("skip", fs2)) :
    fs2 = fs ∧ lookupFile fs2 file_base = lookupFile fs file_base := by
  have heq := downloadFileWith_skip_inv check_mdt req file_base true fs now "skip" fs2 h rfl
  exact ⟨heq, by rw [heq]⟩

/-- Witness for C6 at a concrete skipped update. -/
theorem claim_C6_witness :
    download_file ⟨200, "", some 5, [[1]], 3⟩ "d/a" true [("d/a", ⟨[1, 2], 9⟩)] 7 =
      .ok ("skip", [("d/a", ⟨[1, 2], 9⟩)]) ∧
    ([("d/a", ⟨[1, 2], 9⟩)] : FS) = [("d/a", ⟨[1, 2], 9⟩)] ∧
    lookupFile [("d/a", ⟨[1, 2], 9⟩)] "d/a" = lookupFile [("d/a", ⟨[1, 2], 9⟩)] "d/a" :=
  ⟨by norm_num [download_file, downloadFileWith, check_mdt, lookupFile],
   claim_C6_skip_leaves_file_unchanged ⟨200, "", some 5, [[1]], 3⟩ "d/a"
     [("d/a", ⟨[1, 2], 9⟩)] 7 [("d/a", ⟨[1, 2], 9⟩)]
     (by norm_num [download_file, downloadFileWith, check_mdt, lookupFile])⟩

/-- C10: in update mode the streaming GET is opened and its
Content-length header parsed before the staleness check, so whatever the
staleness predicate would answer, a response without that header raises
KeyError before any skip decision, and the loop lets the exception
terminate the whole run. -/
theorem claim_C10_header_before_skip (cmdt : Response → Option File → Bool) (req : Response)
    (fb : String) (fs : FS) (now : Nat) (h : req.contentLength = none) :
    downloadFileWith cmdt req fb true fs now = .error .keyError ∧
    ∀ (remote : String → Response) (dir fpath : String) (rest : List String)
      (b : Buckets) (tr : Trace),
      remote (remote_of fpath) = req →
      runWith cmdt remote dir now (fpath :: rest) fs b tr = .error .keyError := by
  constructor
  · exact downloadFileWith_none cmdt req fb true fs now h
  · intro remote dir fpath rest b tr hrem
    simp only [runWith, hrem,
      downloadFileWith_none cmdt req (file_base_of dir fpath)
        ((lookupFile fs (file_base_of dir fpath)).isSome) fs now h]

/-- Witness for C10 at a concrete header-less response. -/
theorem claim_C10_witness :
    (⟨200, "", none, [], 0⟩ : Response).contentLength = none ∧
    downloadFileWith check_mdt ⟨200, "", none, [], 0⟩ "d/a" true [] 7 = .error .keyError ∧
    runWith check_mdt (fun _ => ⟨200, "", none, [], 0⟩) "d" 7 ["a"] [] ⟨[], [], []⟩ [] =
      .error .keyError :=
  ⟨rfl,
   (claim_C10_header_before_skip check_mdt ⟨200, "", none, [], 0⟩ "d/a" [] 7 rfl).1,
   (claim_C10_header_before_skip check_mdt ⟨200, "", none, [], 0⟩ "d/a" [] 7 rfl).2
     (fun _ => ⟨200, "", none, [], 0⟩) "d" "a" [] ⟨[], [], []⟩ [] rfl⟩

/-- C5: a target whose local file does not exist never enters update
mode: the loop computes update = false, the result does not depend on the
staleness predicate at all (no staleness check is performed), and a full
fetch is attempted: the result is never skip and on success the body has
been written to the local path. -/
theorem claim_C5_no_update_without_local (dir fpath : String) (fs : FS)
    (h : lookupFile fs (file_base_of dir fpath) = none) :
    (lookupFile fs (file_base_of dir fpath)).isSome = false ∧
    (∀ (cmdt cmdt2 : Response → Option File → Bool) (req : Response) (now : Nat),
      downloadFileWith cmdt req (file_base_of dir fpath) false fs now =
        downloadFileWith cmdt2 req (file_base_of dir fpath) false fs now) ∧
    (∀ (cmdt : Response → Option File → Bool) (req : Response) (now : Nat)
       (st : String) (fs2 : FS),
      downloadFileWith cmdt req (file_base_of dir fpath) false fs now = .ok (st, fs2) →
      st ≠ "skip" ∧ lookupFile fs2 (file_base_of dir fpath) = some ⟨req.body.flatten, now⟩) := by
  refine ⟨by rw [h]; rfl, ?_, ?_⟩
  · intro cmdt cmdt2 req now
    cases req.contentLength <;> simp [downloadFileWith]
  · intro cmdt req now st fs2 hok
    cases hcl : req.contentLength with
    | none =>
      rw [downloadFileWith_none cmdt req (file_base_of dir fpath) false fs now hcl] at hok
      exact absurd hok (by simp)
    | some n =>
      by_cases hn0 : n = 0
      · subst hn0
        rw [downloadFileWith_zero cmdt req (file_base_of dir fpath) false fs now hcl
          (Or.inl rfl)] at hok
        exact absurd hok (by simp)
      · refine ⟨downloadFileWith_no_skip cmdt req (file_base_of dir fpath) false fs now n
          hcl (Or.inl rfl) st fs2 hok, ?_⟩
        rw [downloadFileWith_fetch cmdt req (file_base_of dir fpath) false fs now n hcl hn0
          (Or.inl rfl)] at hok
        have hpair := Except.ok.inj hok
        rw [Prod.mk.injEq] at hpair
        rw [← hpair.2]
        exact lookupFile_writeFile fs (file_base_of dir fpath) _

/-- Witness for C5 at a concrete fresh download. -/
theorem claim_C5_witness :
    lookupFile [] (file_base_of "d" "a") = none ∧
    (lookupFile [] (file_base_of "d" "a")).isSome = false ∧
    downloadFileWith check_mdt ⟨200, "", some 3, [[9, 9, 9]], 0⟩ (file_base_of "d" "a")
        false [] 7 =
      downloadFileWith (fun _ _ => true) ⟨200, "", some 3, [[9, 9, 9]], 0⟩
        (file_base_of "d" "a") false [] 7 ∧
    (("complete" : String) ≠ "skip" ∧
      lookupFile [(file_base_of "d" "a", ⟨[9, 9, 9], 7⟩)] (file_base_of "d" "a") =
        some ⟨(⟨200, "", some 3, [[9, 9, 9]], 0⟩ : Response).body.flatten, 7⟩) :=
  ⟨rfl,
   (claim_C5_no_update_without_local "d" "a" [] rfl).1,
   (claim_C5_no_update_without_local "d" "a" [] rfl).2.1 check_mdt (fun _ _ => true)
     ⟨200, "", some 3, [[9, 9, 9]], 0⟩ 7,
   (claim_C5_no_update_without_local "d" "a" [] rfl).2.2 check_mdt
     ⟨200, "", some 3, [[9, 9, 9]], 0⟩ 7 "complete" [(file_base_of "d" "a", ⟨[9, 9, 9], 7⟩)]
     (by norm_num [downloadFileWith, check_file_status, writeFile, lookupFile,
       percent_eq_self])⟩

/-- C9 counterexample: a target whose response declares a content length
of zero but which resolves to skip in update mode returns normally, so it
is not true that every zero-length declaration crashes the check. -/
theorem claim_C9_counterexample :
    (⟨200, "", some 0, [], 3⟩ : Response).contentLength = some 0 ∧
    download_file ⟨200, "", some 0, [], 3⟩ "d/a" true [("d/a", ⟨[1], 9⟩)] 7 =
      .ok ("skip", [("d/a", ⟨[1], 9⟩)]) := by
  exact ⟨rfl, by norm_num [download_file, downloadFileWith, check_mdt, lookupFile]⟩

/-- C9 as amended: on any attempt that does not resolve to skip, a
declared content length of zero makes the percent-complete computation
divide by zero, so no complete or incomplete classification is returned;
and when the declared content length is positive the division-by-zero
branch is unreachable: the download always returns a status. -/
theorem claim_C9_zero_division (req : Response) (fb : String) (update : Bool)
    (fs : FS) (now : Nat) :
    (req.contentLength = some 0 →
      (update = false ∨ check_mdt req (lookupFile fs fb) = false) →
      download_file req fb update fs now = .error .zeroDivision) ∧
    (∀ n, req.contentLength = some n → 0 < n →
      ∃ st fs2, download_file req fb update fs now = .ok (st, fs2)) := by
  constructor
  · intro h0 hbr
    exact downloadFileWith_zero check_mdt req fb update fs now h0 hbr
  · intro n hn hpos
    by_cases hu : update = true
    · by_cases hc : check_mdt req (lookupFile fs fb) = true
      · subst hu
        exact ⟨"skip", fs, downloadFileWith_skip check_mdt req fb fs now n hn hc⟩
      · have hc2 : check_mdt req (lookupFile fs fb) = false := by
          revert hc; cases check_mdt req (lookupFile fs fb) <;> simp
        exact ⟨_, _, downloadFileWith_fetch check_mdt req fb update fs now n hn
          (by omega) (Or.inr hc2)⟩
    · have hu2 : update = false := by revert hu; cases update <;> simp
      exact ⟨_, _, downloadFileWith_fetch check_mdt req fb update fs now n hn
        (by omega) (Or.inl hu2)⟩

/-- Witness for C9: the zero-length fetch crashes with ZeroDivisionError
and a positive-length fetch returns a status. -/
theorem claim_C9_witness :
    ((⟨200, "", some 0, [], 0⟩ : Response).contentLength = some 0 ∧
      download_file ⟨200, "", some 0, [], 0⟩ "d/a" false [] 7 = .error .zeroDivision) ∧
    ((⟨200, "", some 3, [[9, 9, 9]], 0⟩ : Response).contentLength = some 3 ∧ 0 < 3 ∧
      ∃ st fs2, download_file ⟨200, "", some 3, [[9, 9, 9]], 0⟩ "d/a" false [] 7 =
        .ok (st, fs2)) :=
  ⟨⟨rfl, (claim_C9_zero_division ⟨200, "", some 0, [], 0⟩ "d/a" false [] 7).1 rfl
      (Or.inl rfl)⟩,
   ⟨rfl, by decide,
    (claim_C9_zero_division ⟨200, "", some 3, [[9, 9, 9]], 0⟩ "d/a" false [] 7).2 3 rfl
      (by decide)⟩⟩

/-- C2: for a year string and a valid month string (parsed month between
1 and 12) the plan for that single month has exactly as many targets as
the month has calendar days: the calendar month-range count, equal to 28,
29, 30 or 31, with leap-year February handled by the calendar rules, and
in particular 28 targets for February 2022. -/
theorem claim_C2_one_target_per_day (yr mn : String)
    (h1 : 1 ≤ strToNat mn) (h2 : strToNat mn ≤ 12) :
    ∃ l, get_filelist yr [mn] = some l ∧
      monthrange_days (strToNat yr) (strToNat mn) = some l.length ∧
      (strToNat mn = 2 → l.length = if isleap (strToNat yr) then 29 else 28) ∧
      (l.length = 28 ∨ l.length = 29 ∨ l.length = 30 ∨ l.length = 31) ∧
      (strToNat yr = 2022 → strToNat mn = 2 → l.length = 28) := by
  have hmr : monthrange_days (strToNat yr) (strToNat mn) =
      some (mdaysTable (strToNat mn) +
        if strToNat mn = 2 ∧ isleap (strToNat yr) then 1 else 0) := by
    unfold monthrange_days
    rw [if_pos ⟨h1, h2⟩]
  obtain ⟨l, hl, hlen⟩ := get_filelist_single yr mn _ hmr
  refine ⟨l, hl, by rw [hmr, hlen], ?_, ?_, ?_⟩
  · intro hm2
    rw [hlen, hm2]
    by_cases hly : isleap (strToNat yr) <;> simp [mdaysTable, hly]
  · rw [hlen]
    exact mdays_cases (strToNat yr) (strToNat mn) h1 h2
  · intro hy hm2
    rw [hlen, hm2, hy]
    simp [mdaysTable, isleap]

/-- Witness for C2 at February 2022: exactly 28 targets. -/
theorem claim_C2_witness :
    1 ≤ strToNat "02" ∧ strToNat "02" ≤ 12 ∧
    ∃ l, get_filelist "2022" ["02"] = some l ∧
      monthrange_days (strToNat "2022") (strToNat "02") = some l.length ∧
      (strToNat "02" = 2 → l.length = if isleap (strToNat "2022") then 29 else 28) ∧
      (l.length = 28 ∨ l.length = 29 ∨ l.length = 30 ∨ l.length = 31) ∧
      (strToNat "2022" = 2022 → strToNat "02" = 2 → l.length = 28) :=
  ⟨by decide, by decide, claim_C2_one_target_per_day "2022" "02" (by decide) (by decide)⟩

/-- C3 counterexample: for year 2022, month 02, day 01 the remote URL the
code builds is the base URL followed by the single segment
cmorph_v1.0/30min/8km/2022/02/..., which is not the doubled
v1.0/30min/8km/2022/02/cmorph_v1.0/30min/8km/2022/02/... pattern the
claim states, nor does that doubled pattern occur anywhere in the URL. -/
theorem claim_C3_counterexample :
    ∃ l, get_filelist "2022" ["02"] = some l ∧
      l.head? = some "v1.0/30min/8km/2022/02/CMORPH_V1.0_ADJ_8km-30min_2022020100.nc" ∧
      remote_of "v1.0/30min/8km/2022/02/CMORPH_V1.0_ADJ_8km-30min_2022020100.nc" =
        "https://rda.ucar.edu/data/ds502.2/cmorph_v1.0/30min/8km/2022/02/CMORPH_V1.0_ADJ_8km-30min_2022020100.nc" ∧
      remote_of "v1.0/30min/8km/2022/02/CMORPH_V1.0_ADJ_8km-30min_2022020100.nc" ≠
        dspath ++ claimedRemotePath "2022" "02" "01" ∧
      strContains (remote_of "v1.0/30min/8km/2022/02/CMORPH_V1.0_ADJ_8km-30min_2022020100.nc")
        (claimedRemotePath "2022" "02" "01") = false :=
  ⟨_, rfl, rfl, rfl, by decide, by decide⟩

/-- C3 as amended: every DownloadTarget produced for (year, month, day)
has remote path cmorph_v1.0/30min/8km/yr/mn/CMORPH_V1.0_ADJ_8km-30min_
yrmndd00.nc appended to the dataset base URL (a single directory walk,
not the doubled pattern), and the local path is the parallel path under
the data directory with the remote-only cmorph_ prefix segment omitted. -/
theorem claim_C3_remote_path_pattern (yr : String) (mns : List String) (l : List String)
    (dir : String) (h : get_filelist yr mns = some l) (f : String) (hf : f ∈ l) :
    ∃ mn x, mn ∈ mns ∧
      remote_of f = dspath ++ ("cmorph_" ++
        ("v1.0/30min/8km/" ++ yr ++ "/" ++ mn ++ "/" ++
          ("CMORPH_V1.0_ADJ_8km-30min_" ++ yr ++ mn ++ x ++ "00.nc"))) ∧
      file_base_of dir f = dir ++ "/" ++
        ("v1.0/30min/8km/" ++ yr ++ "/" ++ mn ++ "/" ++
          ("CMORPH_V1.0_ADJ_8km-30min_" ++ yr ++ mn ++ x ++ "00.nc")) ∧
      ∃ lastday i, monthrange_days (strToNat yr) (strToNat mn) = some lastday ∧
        i ∈ List.range' 1 lastday ∧ x = fmt2 i := by
  obtain ⟨mn, x, hmn, hfx, hrest⟩ := get_filelist_mem yr mns l h f hf
  exact ⟨mn, x, hmn, by rw [hfx]; rfl, by rw [hfx]; rfl, hrest⟩

/-- Witness for C3 as amended, at the first target of February 2022. -/
theorem claim_C3_witness :
    (∃ l, get_filelist "2022" ["02"] = some l ∧
      "v1.0/30min/8km/2022/02/CMORPH_V1.0_ADJ_8km-30min_2022020100.nc" ∈ l) ∧
    ∃ mn x, mn ∈ ["02"] ∧
      remote_of "v1.0/30min/8km/2022/02/CMORPH_V1.0_ADJ_8km-30min_2022020100.nc" =
        dspath ++ ("cmorph_" ++
          ("v1.0/30min/8km/" ++ "2022" ++ "/" ++ mn ++ "/" ++
            ("CMORPH_V1.0_ADJ_8km-30min_" ++ "2022" ++ mn ++ x ++ "00.nc"))) ∧
      file_base_of "d" "v1.0/30min/8km/2022/02/CMORPH_V1.0_ADJ_8km-30min_2022020100.nc" =
        "d" ++ "/" ++
          ("v1.0/30min/8km/" ++ "2022" ++ "/" ++ mn ++ "/" ++
            ("CMORPH_V1.0_ADJ_8km-30min_" ++ "2022" ++ mn ++ x ++ "00.nc")) ∧
      ∃ lastday i, monthrange_days (strToNat "2022") (strToNat mn) = some lastday ∧
        i ∈ List.range' 1 lastday ∧ x = fmt2 i :=
  ⟨⟨_, rfl, by decide⟩,
   claim_C3_remote_path_pattern "2022" ["02"] _ "d" rfl
     "v1.0/30min/8km/2022/02/CMORPH_V1.0_ADJ_8km-30min_2022020100.nc" (by decide)⟩

/-- C8: for every planned target the remote URL and the local path are
built from the same relative path: under the dataset base URL the remote
form carries the extra fixed cmorph_ prefix segment, which the local form
under the data directory omits, and that shared relative path is the
day file path of one requested month. -/
theorem claim_C8_paths_differ_by_cmorph (yr : String) (mns : List String) (l : List String)
    (dir : String) (h : get_filelist yr mns = some l) (f : String) (hf : f ∈ l) :
    ∃ tail, remote_of f = dspath ++ ("cmorph_" ++ tail) ∧
      file_base_of dir f = dir ++ "/" ++ tail ∧
      ∃ mn x, mn ∈ mns ∧
        tail = "v1.0/30min/8km/" ++ yr ++ "/" ++ mn ++ "/" ++
          ("CMORPH_V1.0_ADJ_8km-30min_" ++ yr ++ mn ++ x ++ "00.nc") := by
  obtain ⟨mn, x, hmn, hfx, _⟩ := get_filelist_mem yr mns l h f hf
  exact ⟨f, rfl, rfl, mn, x, hmn, hfx⟩

/-- Witness for C8 at the first target of February 2022. -/
theorem claim_C8_witness :
    (∃ l, get_filelist "2022" ["02"] = some l ∧
      "v1.0/30min/8km/2022/02/CMORPH_V1.0_ADJ_8km-30min_2022020100.nc" ∈ l) ∧
    ∃ tail,
      remote_of "v1.0/30min/8km/2022/02/CMORPH_V1.0_ADJ_8km-30min_2022020100.nc" =
        dspath ++ ("cmorph_" ++ tail) ∧
      file_base_of "d" "v1.0/30min/8km/2022/02/CMORPH_V1.0_ADJ_8km-30min_2022020100.nc" =
        "d" ++ "/" ++ tail ∧
      ∃ mn x, mn ∈ ["02"] ∧
        tail = "v1.0/30min/8km/" ++ "2022" ++ "/" ++ mn ++ "/" ++
          ("CMORPH_V1.0_ADJ_8km-30min_" ++ "2022" ++ mn ++ x ++ "00.nc") :=
  ⟨⟨_, rfl, by decide⟩,
   claim_C8_paths_differ_by_cmorph "2022" ["02"] _ "d" rfl
     "v1.0/30min/8km/2022/02/CMORPH_V1.0_ADJ_8km-30min_2022020100.nc" (by decide)⟩

/-- C4: a run of the download loop over a duplicate-free plan classifies
every target exactly once (the trace has one entry per target, in order,
and a unique status per target), fills the three summary buckets pairwise
disjointly, and puts a target that resolved to skip in none of them. -/
theorem claim_C4_buckets_disjoint (remote : String → Response) (dir : String) (now : Nat)
    (flist : List String) (fs : FS) (b : Buckets) (tr : Trace) (fs2 : FS)
    (hnd : flist.Nodup)
    (h : runWith check_mdt remote dir now flist fs ⟨[], [], []⟩ [] = .ok (b, tr, fs2)) :
    tr.map (fun e => e.1) = flist ∧
    (∀ f, f ∈ flist → ∃ u s, (f, u, s) ∈ tr ∧
      ∀ u2 s2, (f, u2, s2) ∈ tr → u2 = u ∧ s2 = s) ∧
    b.updated.Disjoint b.new ∧ b.updated.Disjoint b.error ∧ b.new.Disjoint b.error ∧
    (∀ f u, (f, u, "skip") ∈ tr → f ∉ b.updated ∧ f ∉ b.new ∧ f ∉ b.error) := by
  obtain ⟨d, hd1, hd2, hd3, hd4, hd5⟩ :=
    runWith_ok check_mdt remote dir now flist fs ⟨[], [], []⟩ [] b tr fs2 h
  rw [List.nil_append] at hd1
  subst hd1
  simp only [List.nil_append] at hd3 hd4 hd5
  have hmap : tr.map (fun e => e.1) = flist := hd2
  have hndm : (tr.map (fun e => e.1)).Nodup := by rw [hmap]; exact hnd
  have hinj := List.inj_on_of_nodup_map hndm
  refine ⟨hmap, ?_, ?_, ?_, ?_, ?_⟩
  · intro f hf
    rw [← hmap] at hf
    obtain ⟨e, he, hef⟩ := List.mem_map.mp hf
    obtain ⟨f0, u, s⟩ := e
    obtain rfl : f0 = f := hef
    refine ⟨u, s, he, ?_⟩
    intro u2 s2 hm2
    have := hinj hm2 he rfl
    simp only [Prod.mk.injEq] at this
    exact ⟨this.2.1, this.2.2⟩
  · intro x hx1 hx2
    rw [hd3] at hx1
    rw [hd4] at hx2
    obtain ⟨e1, he1, hs1⟩ := List.mem_filterMap.mp hx1
    obtain ⟨e2, he2, hs2⟩ := List.mem_filterMap.mp hx2
    rw [selUpd_eq_some hs1] at he1
    rw [selNew_eq_some hs2] at he2
    have := hinj he1 he2 rfl
    simp at this
  · intro x hx1 hx2
    rw [hd3] at hx1
    rw [hd5] at hx2
    obtain ⟨e1, he1, hs1⟩ := List.mem_filterMap.mp hx1
    obtain ⟨e2, he2, hs2⟩ := List.mem_filterMap.mp hx2
    rw [selUpd_eq_some hs1] at he1
    obtain ⟨hx2e, hs2e⟩ := selErr_eq_some hs2
    have heq := hinj he1 he2 (by rw [hx2e])
    rw [← heq] at hs2e
    simp at hs2e
  · intro x hx1 hx2
    rw [hd4] at hx1
    rw [hd5] at hx2
    obtain ⟨e1, he1, hs1⟩ := List.mem_filterMap.mp hx1
    obtain ⟨e2, he2, hs2⟩ := List.mem_filterMap.mp hx2
    rw [selNew_eq_some hs1] at he1
    obtain ⟨hx2e, hs2e⟩ := selErr_eq_some hs2
    have heq := hinj he1 he2 (by rw [hx2e])
    rw [← heq] at hs2e
    simp at hs2e
  · intro f u hskip
    refine ⟨?_, ?_, ?_⟩
    · intro hx
      rw [hd3] at hx
      obtain ⟨e1, he1, hs1⟩ := List.mem_filterMap.mp hx
      rw [selUpd_eq_some hs1] at he1
      have := hinj he1 hskip rfl
      simp at this
    · intro hx
      rw [hd4] at hx
      obtain ⟨e1, he1, hs1⟩ := List.mem_filterMap.mp hx
      rw [selNew_eq_some hs1] at he1
      have := hinj he1 hskip rfl
      simp at this
    · intro hx
      rw [hd5] at hx
      obtain ⟨e1, he1, hs1⟩ := List.mem_filterMap.mp hx
      obtain ⟨hx1e, hs1e⟩ := selErr_eq_some hs1
      have heq := hinj he1 hskip hx1e
      rw [heq] at hs1e
      simp at hs1e

/-- Witness for C4 at a concrete one-target run. -/
theorem claim_C4_witness :
    (["a"] : List String).Nodup ∧
    runWith check_mdt (fun _ => ⟨200, "", some 3, [[9, 9, 9]], 0⟩) "d" 7 ["a"] []
        ⟨[], [], []⟩ [] =
      .ok (⟨[], ["a"], []⟩, [("a", false, "complete")], [("d/a", ⟨[9, 9, 9], 7⟩)]) ∧
    (([("a", false, "complete")] : Trace).map (fun e => e.1) = ["a"] ∧
    (∀ f, f ∈ ["a"] → ∃ u s, (f, u, s) ∈ ([("a", false, "complete")] : Trace) ∧
      ∀ u2 s2, (f, u2, s2) ∈ ([("a", false, "complete")] : Trace) → u2 = u ∧ s2 = s) ∧
    (Buckets.mk [] ["a"] []).updated.Disjoint (Buckets.mk [] ["a"] []).new ∧
    (Buckets.mk [] ["a"] []).updated.Disjoint (Buckets.mk [] ["a"] []).error ∧
    (Buckets.mk [] ["a"] []).new.Disjoint (Buckets.mk [] ["a"] []).error ∧
    (∀ f u, (f, u, "skip") ∈ ([("a", false, "complete")] : Trace) →
      f ∉ (Buckets.mk [] ["a"] []).updated ∧ f ∉ (Buckets.mk [] ["a"] []).new ∧
      f ∉ (Buckets.mk [] ["a"] []).error)) :=
  ⟨by decide,
   by norm_num [runWith, downloadFileWith, check_file_status, writeFile, lookupFile,
     file_base_of, classify, percent_eq_self,
     show ("d" ++ "/" ++ "a" : String) = "d/a" from rfl],
   claim_C4_buckets_disjoint (fun _ => ⟨200, "", some 3, [[9, 9, 9]], 0⟩) "d" 7 ["a"] []
     ⟨[], ["a"], []⟩ [("a", false, "complete")] [("d/a", ⟨[9, 9, 9], 7⟩)] (by decide)
     (by norm_num [runWith, downloadFileWith, check_file_status, writeFile, lookupFile,
       file_base_of, classify, percent_eq_self,
       show ("d" ++ "/" ++ "a" : String) = "d/a" from rfl])⟩

/-- C7 counterexample: when authentication returns 403 with body
Forbidden, the process aborts at once, but the lines it logs before
exit(1) are the fixed string Bad Authentication and the response body;
neither of them contains the status code 403, so the claim that the
status is logged fails on this input. -/
theorem claim_C7_counterexample :
    main_run ⟨403, "Forbidden", none, [], 0⟩ "2022" ["02"]
        (fun _ => ⟨200, "", some 1, [[0]], 0⟩) "" [] 0 =
      .error (.systemExit ["Bad Authentication", "Forbidden"]) ∧
    ¬ logsStatusCode ["Bad Authentication", "Forbidden"] 403 := by
  constructor
  · rfl
  · unfold logsStatusCode
    decide

/-- C7 as amended: whatever status code other than 200 the
authentication POST returns, the program logs the fixed Bad
Authentication line and the response body (not the numeric status code)
and terminates the whole process immediately: the result of the entire
run does not depend on the year, the months, the remote server or the
local filesystem, no file-plan construction is observable, and the per-run
summary is never produced. -/
theorem claim_C7_auth_failure_aborts (ret : Response) (yr : String) (mns : List String)
    (remote : String → Response) (root_dir : String) (fs : FS) (now : Nat)
    (h : ret.status_code ≠ 200) :
    main_run ret yr mns remote root_dir fs now =
      .error (.systemExit ["Bad Authentication", ret.text]) := by
  unfold main_run authenticate
  rw [if_pos h]

/-- Witness for C7 as amended at a concrete 403 response. -/
theorem claim_C7_witness :
    (⟨403, "Forbidden", none, [], 0⟩ : Response).status_code ≠ 200 ∧
    main_run ⟨403, "Forbidden", none, [], 0⟩ "1999" ["07"]
        (fun _ => ⟨200, "", some 1, [[0]], 0⟩) "root" [("x", ⟨[], 0⟩)] 5 =
      .error (.systemExit ["Bad Authentication", "Forbidden"]) :=
  ⟨by decide,
   claim_C7_auth_failure_aborts ⟨403, "Forbidden", none, [], 0⟩ "1999" ["07"]
     (fun _ => ⟨200, "", some 1, [[0]], 0⟩) "root" [("x", ⟨[], 0⟩)] 5 (by decide)⟩

end Cmorph
